import Mathlib

/-!
Verification development for the lead-cleaning pipeline (src/app.py, src/tasks.py).

The Python source is shallowly embedded as executable Lean definitions:

* strings are handled as `String` / `List Char`; Python's case-insensitive
  anchored `re.match` becomes a prefix test on lower-cased character lists,
  Python's substring test `p in s` becomes `containsSubstr`, `str.strip()`
  becomes `pyStrip`, `str.split('@')` becomes `splitAtChar '@'`;
* CSV rows (Python dicts produced by `csv.DictReader`) become association
  lists `List (String × String)` in header order;
* network effects (the Google DNS HTTP lookup, the `dns.resolver` fallback,
  the Gemini call, the Drive upload) become explicit oracle parameters: each
  oracle value records what the corresponding external call would return or
  raise, and exceptions become `Except` values.
-/

/-- Lower-cases a string character by character, modelling Python's
case-insensitive matching (`re.IGNORECASE`) and `str.lower()` for the
ASCII patterns used by the source. -/
def lcChars (s : String) : List Char :=
  s.toList.map Char.toLower

/-- Python substring membership `needle in hay` on character lists. -/
def containsSubstr (needle : List Char) : List Char → Bool
  | [] => needle.isEmpty
  | c :: t => needle.isPrefixOf (c :: t) || containsSubstr needle t

/-- Python `str.strip()`: drop whitespace from both ends. -/
def pyStrip (s : String) : List Char :=
  ((s.toList.dropWhile Char.isWhitespace).reverse.dropWhile Char.isWhitespace).reverse

/-- Python `str.split(sep)` for a one-character separator. -/
def splitAtChar (sep : Char) : List Char → List (List Char)
  | [] => [[]]
  | c :: t =>
    if c = sep then [] :: splitAtChar sep t
    else
      match splitAtChar sep t with
      | h :: r => (c :: h) :: r
      | [] => [[c]]

/-- Python `email.split('@')[1]` (src/tasks.py line 186): the text between
the first and second `@`. -/
def domainAfterAt (email : List Char) : String :=
  String.mk ((splitAtChar '@' email).getD 1 [])

/-- Column matcher for the title field, src/tasks.py line 271:
`re.match(r"(?i)title", key)`.  `re.match` anchors at the start of the
string, so this is a case-insensitive prefix test. -/
def titleMatch (key : String) : Bool :=
  "title".toList.isPrefixOf (lcChars key)

/-- Column matcher for the email field, src/tasks.py line 180:
`re.match(r"(?i)email", key)` (anchored at the start). -/
def emailMatch (key : String) : Bool :=
  "email".toList.isPrefixOf (lcChars key)

/-- Column matcher for the company field, src/tasks.py line 168:
`re.match(r"(?i)(organization name|company|company name|organization)", key)`.
The regex alternation anchored at the start succeeds exactly when one of the
four literals is a case-insensitive prefix of the key. -/
def companyMatch (key : String) : Bool :=
  "organization name".toList.isPrefixOf (lcChars key) ||
  "company".toList.isPrefixOf (lcChars key) ||
  "company name".toList.isPrefixOf (lcChars key) ||
  "organization".toList.isPrefixOf (lcChars key)

/-- Python `next((key for key in row.keys() if re.match(pat, key)), None)`:
the first key of the row (in header order) satisfying the matcher. -/
def findKey (p : String → Bool) (fields : List (String × String)) : Option String :=
  (fields.find? (fun kv => p kv.1)).map Prod.fst

/-- Python `row.get(key, default)` where `key` is an `Option` (the matcher
may have returned `None`, which is absent from any row). -/
def rowGet (fields : List (String × String)) (key : Option String) (dflt : String) : String :=
  match key with
  | some k => (List.lookup k fields).getD dflt
  | none => dflt

/-- Title resolution in `evaluate_lead`, src/tasks.py lines 271-272. -/
def resolvedTitle (fields : List (String × String)) : String :=
  rowGet fields (findKey titleMatch fields) "Unknown Position"

/-- Company resolution in `process_csv_task`, src/tasks.py lines 168-169. -/
def companyName (fields : List (String × String)) : String :=
  rowGet fields (findKey companyMatch fields) "Unknown Company"

/-- Gmail-family MX host test, src/tasks.py lines 98 and 125: the
(lower-cased) host contains one of the Gmail patterns as a substring. -/
def gmailHost (mx : List Char) : Bool :=
  ["google.com", "googlemail.com", "gmail.com"].any (fun p => containsSubstr p.toList mx)

/-- Outlook-family MX host test, src/tasks.py lines 100 and 127. -/
def outlookHost (mx : List Char) : Bool :=
  ["outlook.com", "hotmail.com", "microsoft.com", "office365.com"].any
    (fun p => containsSubstr p.toList mx)

/-- Provider-scan loop over the MX hostnames, src/tasks.py lines 93-102
(and its duplicate 120-129).  Each host is lower-cased; a Gmail match sets
the provider and the loop continues; an Outlook match (tested only when the
Gmail test failed on that host) returns immediately (`break`). -/
def scanHosts : List String → String → String
  | [], provider => provider
  | h :: rest, provider =>
    let mx := lcChars h
    if gmailHost mx then scanHosts rest "Gmail"
    else if outlookHost mx then "Outlook"
    else scanHosts rest provider

/-- Provider classification of a non-empty MX answer set, src/tasks.py
lines 93-107: run the scan starting from the empty provider, defaulting to
`Other` when no host matched. -/
def classifyHosts (hosts : List String) : String :=
  let provider := scanHosts hosts ""
  if provider = "" then "Other" else provider

/-- Shared shape of one MX lookup attempt, src/tasks.py lines 88-107 and
114-134: an empty answer set yields `No MX Records`, otherwise the answers
are scanned for provider patterns. -/
def processAnswers (answers : List String) : String :=
  if answers.isEmpty then "No MX Records" else classifyHosts answers

/-- Outcome of the `dns.resolver` fallback block, src/tasks.py lines
113-138: a raised exception yields `ERROR`. -/
def resolverLookup (fallback : Except Unit (List String)) : String :=
  match fallback with
  | Except.ok answers => if answers.isEmpty then "No MX Records" else classifyHosts answers
  | Except.error _ => "ERROR"

/-- Embedding of `mx_lookup`, src/tasks.py lines 72-142.  `primary` is what
the Google DNS HTTP lookup produces: `Except.ok answers` when the request
returned 200 with a parsable payload (`answers` the possibly-empty `Answer`
list), `Except.error ()` for a non-200 status, network failure or malformed
payload.  `fallback` likewise records the `dns.resolver` outcome.  Any
primary error falls through to the fallback block; if that also raises, the
function returns `ERROR`. -/
def mx_lookup (primary fallback : Except Unit (List String)) : String :=
  match primary with
  | Except.ok answers => if answers.isEmpty then "No MX Records" else classifyHosts answers
  | Except.error _ =>
    match fallback with
    | Except.ok answers => if answers.isEmpty then "No MX Records" else classifyHosts answers
    | Except.error _ => "ERROR"

/-- Per-row email handling of `process_csv_task`, src/tasks.py lines
180-197: find the email column; a missing column or falsy (empty) value
yields `No Email`; otherwise the value is stripped and, if it contains `@`,
the provider lookup `mx` is invoked on the domain after the first `@`,
else the result is `Invalid Email`. -/
def mxResultOf (fields : List (String × String)) (mx : String → String) : String :=
  match findKey emailMatch fields with
  | some emailKey =>
    match List.lookup emailKey fields with
    | some v =>
      if v = "" then "No Email"
      else
        let email := pyStrip v
        if email.contains '@' then mx (domainAfterAt email)
        else "Invalid Email"
    | none => "No Email"
  | none => "No Email"

/-- The raw value of the resolved email column, if any: `row.get(email_key)`
with `email_key` the first matching key (src/tasks.py lines 180-182). -/
def emailValue (fields : List (String × String)) : Option String :=
  match findKey emailMatch fields with
  | some emailKey => List.lookup emailKey fields
  | none => none

/-- Bundle formula of src/tasks.py line 175: `(employee_number - 1) // 50 + 1`. -/
def bundleOf (count : Nat) : Nat :=
  (count - 1) / 50 + 1

/-- Functional update of the `company_counts` dictionary, src/tasks.py
lines 171-172. -/
def updateCount (counts : String → Nat) (c : String) (n : Nat) : String → Nat :=
  fun x => if x = c then n else counts x

/-- Bundle assignment over a sequence of company names carrying the
`company_counts` state, src/tasks.py lines 160-176. -/
def assignBundlesGo : List String → (String → Nat) → List Nat
  | [], _ => []
  | c :: rest, counts =>
    let n := counts c + 1
    bundleOf n :: assignBundlesGo rest (updateCount counts c n)

/-- Bundle assignment starting from the empty counter dictionary. -/
def assignBundles (companies : List String) : List Nat :=
  assignBundlesGo companies (fun _ => 0)

/-- The 1-based occurrence index of the company at position `i` within the
arrival order: how many times `companies[i]` appears among the first `i+1`
entries. -/
def occIndex (companies : List String) (i : Nat) : Nat :=
  (companies.take (i + 1)).count (companies.getD i "")

/-- One parsed CSV row as seen by the row loop of `process_csv_task`:
either a well-formed key-value record (a dict, kept in header order) or a
malformed row (the `not isinstance(row, dict)` guard of src/tasks.py
line 163). -/
inductive InputRow where
  | malformed
  | wellFormed (fields : List (String × String))

/-- An augmented output row: the original fields plus the three derived
columns `Limpio`, `Bundle`, `MX Result` (src/tasks.py line 156). -/
structure AugRow where
  fields : List (String × String)
  limpio : String
  bundle : Nat
  mxResult : String

/-- Classification outcome folded to the written label, src/tasks.py lines
200-204: a raised exception is substituted with `"Error"`. -/
def limpioOf (r : Except Unit String) : String :=
  match r with
  | Except.ok l => l
  | Except.error _ => "Error"

/-- The row loop of `process_csv_task`, src/tasks.py lines 160-206.
`rowIndex` is the `enumerate` counter (it advances on malformed rows too);
`counts` is the `company_counts` state; `classify rowIndex` records what
`evaluate_lead_with_retry` ultimately does for that row (`Except.error ()`
when it raises after exhausting its retries); `mx` records what `mx_lookup`
returns for each domain.  A malformed row is skipped (logged, not written);
a well-formed row is always written, with bundle number, MX result and
classification label attached. -/
def processRowsGo :
    List InputRow → Nat → (String → Nat) → (Nat → Except Unit String) → (String → String) →
    List AugRow
  | [], _, _, _, _ => []
  | InputRow.malformed :: rest, rowIndex, counts, classify, mx =>
    processRowsGo rest (rowIndex + 1) counts classify mx
  | InputRow.wellFormed fields :: rest, rowIndex, counts, classify, mx =>
    let company := companyName fields
    let n := counts company + 1
    { fields := fields
      limpio := limpioOf (classify rowIndex)
      bundle := bundleOf n
      mxResult := mxResultOf fields mx }
      :: processRowsGo rest (rowIndex + 1) (updateCount counts company n) classify mx

/-- The row loop started on the first row with an empty counter dictionary. -/
def processRows (rows : List InputRow) (classify : Nat → Except Unit String)
    (mx : String → String) : List AugRow :=
  processRowsGo rows 0 (fun _ => 0) classify mx

/-- The well-formed rows of the input, in arrival order. -/
def wellFormedFieldsOf : List InputRow → List (List (String × String))
  | [] => []
  | InputRow.malformed :: rest => wellFormedFieldsOf rest
  | InputRow.wellFormed fields :: rest => fields :: wellFormedFieldsOf rest

/-- Python truthiness of `csv_reader.fieldnames`, src/tasks.py line 150:
`None` (no first line at all) and the empty header list are both falsy. -/
def headerMissing (fieldnames : Option (List String)) : Bool :=
  match fieldnames with
  | none => true
  | some fs => fs.isEmpty

/-- Observable outcome of one `process_csv_task` run: the returned dict
(`Except.error` for the `error` key, `Except.ok` for `message`/`file_link`),
the rows written to the output CSV, and whether the upload was performed. -/
structure TaskOutcome where
  result : Except String String
  outputRows : List AugRow
  uploaded : Bool

/-- Embedding of `process_csv_task`, src/tasks.py lines 144-230.  A missing
header returns the structured error immediately (line 150-152): no row is
processed, nothing is written, nothing uploaded.  Otherwise the row loop
runs and the output is handed to the upload collaborator, whose failure is
caught by the outer handler and reported as the task's error result. -/
def process_csv_task (fieldnames : Option (List String)) (rows : List InputRow)
    (classify : Nat → Except Unit String) (mx : String → String)
    (upload : List AugRow → Except Unit String) : TaskOutcome :=
  if headerMissing fieldnames then
    { result := Except.error "CSV data is missing headers.", outputRows := [], uploaded := false }
  else
    let out := processRows rows classify mx
    match upload out with
    | Except.ok link => { result := Except.ok link, outputRows := out, uploaded := true }
    | Except.error _ =>
      { result := Except.error "Processing failed", outputRows := out, uploaded := false }

/-- What one `evaluate_lead` call does, classified by which `except` clause
of `evaluate_lead_with_retry` (src/tasks.py lines 233-266) would catch it. -/
inductive AttemptOutcome where
  | success (label : String)
  | deadlineExceeded
  | retryError
  | permissionDenied
  | unauthenticated
  | otherError
deriving DecidableEq

/-- Observable outcome of `evaluate_lead_with_retry`: the value returned
(`Except.ok (some label)`; `Except.ok none` models falling off the loop,
possible only with a zero retry budget) or the exception re-raised
(`Except.error`), together with the number of `time.sleep(delay)` calls and
the number of `evaluate_lead` attempts consumed. -/
structure RetryResult where
  result : Except AttemptOutcome (Option String)
  delays : Nat
  attemptsUsed : Nat

/-- The retry loop of `evaluate_lead_with_retry`, src/tasks.py lines
235-266.  `outcomes attempt` is what the `attempt`-th `evaluate_lead` call
does.  Timeouts (`DeadlineExceeded`), `RetryError` and any unexpected
exception sleep and retry while `attempt < retries - 1` and re-raise on the
final attempt; `PermissionDenied` and `Unauthenticated` re-raise
immediately. -/
def retryLoop (outcomes : Nat → AttemptOutcome) (retries attempt delays : Nat) : RetryResult :=
  if h : attempt < retries then
    match outcomes attempt with
    | AttemptOutcome.success label =>
      { result := Except.ok (some label), delays := delays, attemptsUsed := attempt + 1 }
    | AttemptOutcome.deadlineExceeded =>
      if attempt < retries - 1 then retryLoop outcomes retries (attempt + 1) (delays + 1)
      else { result := Except.error AttemptOutcome.deadlineExceeded, delays := delays,
             attemptsUsed := attempt + 1 }
    | AttemptOutcome.retryError =>
      if attempt < retries - 1 then retryLoop outcomes retries (attempt + 1) (delays + 1)
      else { result := Except.error AttemptOutcome.retryError, delays := delays,
             attemptsUsed := attempt + 1 }
    | AttemptOutcome.permissionDenied =>
      { result := Except.error AttemptOutcome.permissionDenied, delays := delays,
        attemptsUsed := attempt + 1 }
    | AttemptOutcome.unauthenticated =>
      { result := Except.error AttemptOutcome.unauthenticated, delays := delays,
        attemptsUsed := attempt + 1 }
    | AttemptOutcome.otherError =>
      if attempt < retries - 1 then retryLoop outcomes retries (attempt + 1) (delays + 1)
      else { result := Except.error AttemptOutcome.otherError, delays := delays,
             attemptsUsed := attempt + 1 }
  else { result := Except.ok none, delays := delays, attemptsUsed := attempt }
termination_by retries - attempt
decreasing_by all_goals omega

/-- Embedding of `evaluate_lead_with_retry` with its default budget
`retries=3`, starting at the first attempt with no delays consumed. -/
def evaluate_lead_with_retry (outcomes : Nat → AttemptOutcome) : RetryResult :=
  retryLoop outcomes 3 0 0

/-- C3: a classification call whose first two LLM attempts raise a timeout
(`DeadlineExceeded`) and whose third succeeds returns the successful label
after exactly 2 inter-attempt delays and the full 3-attempt budget; a call
whose first attempt raises an auth/permission error re-raises immediately
with zero delays and only one attempt consumed. -/
theorem retry_timeout_then_success_auth_immediate
    (outcomes : Nat → AttemptOutcome) (l : String) :
    (outcomes 0 = AttemptOutcome.deadlineExceeded →
     outcomes 1 = AttemptOutcome.deadlineExceeded →
     outcomes 2 = AttemptOutcome.success l →
     evaluate_lead_with_retry outcomes =
       { result := Except.ok (some l), delays := 2, attemptsUsed := 3 })
    ∧ (outcomes 0 = AttemptOutcome.permissionDenied →
       evaluate_lead_with_retry outcomes =
         { result := Except.error AttemptOutcome.permissionDenied, delays := 0,
           attemptsUsed := 1 })
    ∧ (outcomes 0 = AttemptOutcome.unauthenticated →
       evaluate_lead_with_retry outcomes =
         { result := Except.error AttemptOutcome.unauthenticated, delays := 0,
           attemptsUsed := 1 }) := by
  refine ⟨fun h0 h1 h2 => ?_, fun h0 => ?_, fun h0 => ?_⟩ <;>
    simp [evaluate_lead_with_retry, retryLoop, h0, *]

/-- C3 witness: the retry behaviour evaluated on concrete attempt traces. -/
theorem retry_timeout_then_success_auth_immediate_witness :
    evaluate_lead_with_retry
        (fun attempt => if attempt < 2 then AttemptOutcome.deadlineExceeded
                        else AttemptOutcome.success "Si") =
      { result := Except.ok (some "Si"), delays := 2, attemptsUsed := 3 }
    ∧ evaluate_lead_with_retry (fun _ => AttemptOutcome.permissionDenied) =
      { result := Except.error AttemptOutcome.permissionDenied, delays := 0,
        attemptsUsed := 1 } :=
  ⟨(retry_timeout_then_success_auth_immediate _ "Si").1 rfl rfl rfl,
   (retry_timeout_then_success_auth_immediate (fun _ => AttemptOutcome.permissionDenied)
      "Si").2.1 rfl⟩

/-- C9: exceptions that are neither the designated retryable types nor the
auth/permission types (the bare `except Exception` clause) are retried with
the same delay schedule up to the full 3-attempt budget and re-raised only
after the final attempt; in particular a later successful attempt still
returns its label. -/
theorem retry_unexpected_errors_use_full_budget
    (outcomes : Nat → AttemptOutcome) (l : String) :
    (outcomes 0 = AttemptOutcome.otherError →
     outcomes 1 = AttemptOutcome.otherError →
     outcomes 2 = AttemptOutcome.otherError →
     evaluate_lead_with_retry outcomes =
       { result := Except.error AttemptOutcome.otherError, delays := 2, attemptsUsed := 3 })
    ∧ (outcomes 0 = AttemptOutcome.otherError →
       outcomes 1 = AttemptOutcome.success l →
       evaluate_lead_with_retry outcomes =
         { result := Except.ok (some l), delays := 1, attemptsUsed := 2 }) := by
  refine ⟨fun h0 h1 h2 => ?_, fun h0 h1 => ?_⟩ <;>
    simp [evaluate_lead_with_retry, retryLoop, h0, *]

/-- C9 witness: the unexpected-error retry behaviour on concrete traces. -/
theorem retry_unexpected_errors_use_full_budget_witness :
    evaluate_lead_with_retry (fun _ => AttemptOutcome.otherError) =
      { result := Except.error AttemptOutcome.otherError, delays := 2, attemptsUsed := 3 }
    ∧ evaluate_lead_with_retry
        (fun attempt => if attempt = 0 then AttemptOutcome.otherError
                        else AttemptOutcome.success "Si") =
      { result := Except.ok (some "Si"), delays := 1, attemptsUsed := 2 } :=
  ⟨(retry_unexpected_errors_use_full_budget (fun _ => AttemptOutcome.otherError) "Si").1
      rfl rfl rfl,
   (retry_unexpected_errors_use_full_budget _ "Si").2 rfl rfl⟩

/-- C8: when the CSV data has no header row the task terminates in the
header-missing error state: it returns the structured error, writes no
output rows, uploads nothing, and its outcome does not depend on the rows
or on any collaborator oracle (no row is processed). -/
theorem header_missing_is_terminal (fieldnames : Option (List String)) (rows : List InputRow)
    (classify : Nat → Except Unit String) (mx : String → String)
    (upload : List AugRow → Except Unit String)
    (h : headerMissing fieldnames = true) :
    process_csv_task fieldnames rows classify mx upload =
      { result := Except.error "CSV data is missing headers.", outputRows := [],
        uploaded := false }
    ∧ ∀ (rows' : List InputRow) (classify' : Nat → Except Unit String)
        (mx' : String → String) (upload' : List AugRow → Except Unit String),
        process_csv_task fieldnames rows classify mx upload =
          process_csv_task fieldnames rows' classify' mx' upload' := by
  refine ⟨?_, fun rows' classify' mx' upload' => ?_⟩ <;> simp [process_csv_task, h]

/-- C8 witness: a headerless input with a pending row and willing
collaborators still yields the terminal error with no output or upload. -/
theorem header_missing_is_terminal_witness :
    process_csv_task none [InputRow.wellFormed [("Email", "a@b.com")]]
        (fun _ => Except.ok "limpio") (fun _ => "Gmail") (fun _ => Except.ok "http://link") =
      { result := Except.error "CSV data is missing headers.", outputRows := [],
        uploaded := false } :=
  (header_missing_is_terminal none [InputRow.wellFormed [("Email", "a@b.com")]]
    (fun _ => Except.ok "limpio") (fun _ => "Gmail") (fun _ => Except.ok "http://link") rfl).1

/-- Characterisation of the provider-scan loop: starting from an
accumulator that is empty or already `Gmail`, the scan returns `Outlook`
exactly when some host matches an Outlook pattern while failing the Gmail
test, else `Gmail` when some host matches a Gmail pattern, else the
accumulator. -/
lemma scanHosts_spec :
    ∀ (hosts : List String) (acc : String), acc = "" ∨ acc = "Gmail" →
    scanHosts hosts acc =
      if hosts.any (fun h => !gmailHost (lcChars h) && outlookHost (lcChars h)) then "Outlook"
      else if hosts.any (fun h => gmailHost (lcChars h)) then "Gmail"
      else acc := by
  intro hosts
  induction hosts with
  | nil => intro acc _; simp [scanHosts]
  | cons h rest ih =>
    intro acc hacc
    by_cases hg : gmailHost (lcChars h) = true
    · rw [show scanHosts (h :: rest) acc = scanHosts rest "Gmail" from by simp [scanHosts, hg]]
      rw [ih "Gmail" (Or.inr rfl)]
      by_cases hoo : rest.any (fun x => !gmailHost (lcChars x) && outlookHost (lcChars x)) = true <;>
        simp [List.any_cons, hg, hoo]
    · by_cases hk : outlookHost (lcChars h) = true
      · rw [show scanHosts (h :: rest) acc = "Outlook" from by simp [scanHosts, hg, hk]]
        simp [List.any_cons, hg, hk]
      · rw [show scanHosts (h :: rest) acc = scanHosts rest acc from by simp [scanHosts, hg, hk]]
        rw [ih acc hacc]
        simp [List.any_cons, hg, hk]

/-- Closed form of the host classification. -/
lemma classifyHosts_spec (hosts : List String) :
    classifyHosts hosts =
      if hosts.any (fun h => !gmailHost (lcChars h) && outlookHost (lcChars h)) then "Outlook"
      else if hosts.any (fun h => gmailHost (lcChars h)) then "Gmail"
      else "Other" := by
  simp only [classifyHosts]
  rw [scanHosts_spec hosts "" (Or.inl rfl)]
  by_cases h1 : hosts.any (fun x => !gmailHost (lcChars x) && outlookHost (lcChars x)) = true <;>
    by_cases h2 : hosts.any (fun x => gmailHost (lcChars x)) = true <;>
      simp [h1, h2]

/-- The host classification only ever produces one of the three provider
labels. -/
lemma classifyHosts_cases (hosts : List String) :
    classifyHosts hosts = "Outlook" ∨ classifyHosts hosts = "Gmail" ∨
      classifyHosts hosts = "Other" := by
  rw [classifyHosts_spec]
  by_cases h1 : hosts.any (fun x => !gmailHost (lcChars x) && outlookHost (lcChars x)) = true <;>
    by_cases h2 : hosts.any (fun x => gmailHost (lcChars x)) = true <;>
      simp [h1, h2]

/-- C6: an answering lookup with an empty MX record set yields
`No MX Records` (whether it is the primary or the fallback that answers);
any primary error makes the result that of the resolver-based fallback
block; and `ERROR` is returned exactly when both lookups fail. -/
theorem mx_lookup_fallback_and_error (primary fallback : Except Unit (List String)) :
    (primary = Except.ok [] → mx_lookup primary fallback = "No MX Records")
    ∧ (primary = Except.error () → fallback = Except.ok [] →
        mx_lookup primary fallback = "No MX Records")
    ∧ (primary = Except.error () → mx_lookup primary fallback = resolverLookup fallback)
    ∧ (mx_lookup primary fallback = "ERROR" ↔
        primary = Except.error () ∧ fallback = Except.error ()) := by
  refine ⟨fun hp => by simp [hp, mx_lookup], fun hp hf => by simp [hp, hf, mx_lookup], ?_, ?_⟩
  · intro hp
    cases fallback with
    | ok answers => simp [hp, mx_lookup, resolverLookup]
    | error e => simp [hp, mx_lookup, resolverLookup]
  · cases primary with
    | ok answers =>
      rcases Bool.eq_false_or_eq_true answers.isEmpty with he | he <;>
        rcases classifyHosts_cases answers with hc | hc | hc <;>
          simp [mx_lookup, he, hc]
    | error e =>
      cases fallback with
      | ok answers =>
        rcases Bool.eq_false_or_eq_true answers.isEmpty with he | he <;>
          rcases classifyHosts_cases answers with hc | hc | hc <;>
            simp [mx_lookup, he, hc]
      | error f => simp [mx_lookup]

/-- C6 witness: the fallback and error behaviour on concrete lookup
outcomes. -/
theorem mx_lookup_fallback_and_error_witness :
    mx_lookup (Except.ok []) (Except.error ()) = "No MX Records"
    ∧ mx_lookup (Except.error ()) (Except.ok []) = "No MX Records"
    ∧ mx_lookup (Except.error ()) (Except.ok ["mx.example.net"]) =
        resolverLookup (Except.ok ["mx.example.net"])
    ∧ mx_lookup (Except.error ()) (Except.error ()) = "ERROR" :=
  ⟨(mx_lookup_fallback_and_error (Except.ok []) (Except.error ())).1 rfl,
   (mx_lookup_fallback_and_error (Except.error ()) (Except.ok [])).2.1 rfl rfl,
   (mx_lookup_fallback_and_error (Except.error ()) (Except.ok ["mx.example.net"])).2.2.1 rfl,
   (mx_lookup_fallback_and_error (Except.error ()) (Except.error ())).2.2.2.mpr ⟨rfl, rfl⟩⟩

/-- C2 counterexample: a single MX host that contains both a Gmail pattern
and an Outlook pattern is classified `Gmail`, although it matches an
Outlook-family pattern — the per-host check tests the Gmail family first,
so the claim "returns Outlook whenever any MX host matches an
Outlook-family pattern" fails at this input. -/
theorem outlook_precedence_counterexample :
    outlookHost (lcChars "mx.google.com.outlook.com") = true
    ∧ gmailHost (lcChars "mx.google.com.outlook.com") = true
    ∧ classifyHosts ["mx.google.com.outlook.com"] = "Gmail"
    ∧ mx_lookup (Except.ok ["mx.google.com.outlook.com"]) (Except.error ()) = "Gmail" := by
  refine ⟨by decide, by decide, by decide, by decide⟩

/-- C2 amended: the classifier returns `Outlook` exactly when some MX host
matches an Outlook-family pattern without also matching a Gmail-family
pattern (per host the Gmail family is tested first); it returns `Gmail`
exactly when no such Outlook-only host exists and some host matches a
Gmail-family pattern; and `Other` exactly when no host matches either
family.  For hosts matching at most one family this coincides with the
original claim, Outlook precedence across distinct hosts included. -/
theorem provider_scan_amended (hosts : List String) :
    (classifyHosts hosts = "Outlook" ↔
      ∃ h ∈ hosts, outlookHost (lcChars h) = true ∧ gmailHost (lcChars h) = false)
    ∧ (classifyHosts hosts = "Gmail" ↔
      ((∀ h ∈ hosts, ¬(outlookHost (lcChars h) = true ∧ gmailHost (lcChars h) = false))
        ∧ ∃ h ∈ hosts, gmailHost (lcChars h) = true))
    ∧ (classifyHosts hosts = "Other" ↔
      ∀ h ∈ hosts, gmailHost (lcChars h) = false ∧ outlookHost (lcChars h) = false) := by
  rw [classifyHosts_spec]
  by_cases h1 : hosts.any (fun x => !gmailHost (lcChars x) && outlookHost (lcChars x)) = true
  · obtain ⟨w, hw, hwp⟩ := List.any_eq_true.mp h1
    rw [Bool.and_eq_true, Bool.not_eq_true'] at hwp
    refine ⟨?_, ?_, ?_⟩
    · exact iff_of_true (by simp [h1]) ⟨w, hw, hwp.2, hwp.1⟩
    · simp only [h1, if_true]
      refine iff_of_false (by decide) ?_
      rintro ⟨hall, -⟩
      exact hall w hw ⟨hwp.2, hwp.1⟩
    · simp only [h1, if_true]
      refine iff_of_false (by decide) ?_
      intro hall
      exact absurd hwp.2 (by simp [(hall w hw).2])
  · have h1' : ∀ x ∈ hosts, (!gmailHost (lcChars x) && outlookHost (lcChars x)) = false := by
      intro x hx
      by_contra hne
      exact h1 (List.any_eq_true.mpr ⟨x, hx, by revert hne; cases bv : (!gmailHost (lcChars x) && outlookHost (lcChars x)) <;> simp⟩)
    have hno : ∀ x ∈ hosts, ¬(outlookHost (lcChars x) = true ∧ gmailHost (lcChars x) = false) := by
      intro x hx ⟨ho, hg⟩
      have := h1' x hx
      rw [hg, ho] at this
      simp at this
    by_cases h2 : hosts.any (fun x => gmailHost (lcChars x)) = true
    · obtain ⟨w, hw, hwg⟩ := List.any_eq_true.mp h2
      refine ⟨?_, ?_, ?_⟩
      · simp only [h1, if_false, h2, if_true]
        refine iff_of_false (by decide) ?_
        rintro ⟨x, hx, hxo, hxg⟩
        exact hno x hx ⟨hxo, hxg⟩
      · exact iff_of_true (by simp [h1, h2]) ⟨hno, w, hw, hwg⟩
      · simp only [h1, if_false, h2, if_true]
        refine iff_of_false (by decide) ?_
        intro hall
        exact absurd hwg (by simp [(hall w hw).1])
    · have h2' : ∀ x ∈ hosts, gmailHost (lcChars x) = false := by
        intro x hx
        by_contra hne
        exact h2 (List.any_eq_true.mpr ⟨x, hx, by revert hne; cases bv : gmailHost (lcChars x) <;> simp⟩)
      refine ⟨?_, ?_, ?_⟩
      · simp only [h1, if_false, h2, if_false]
        refine iff_of_false (by decide) ?_
        rintro ⟨x, hx, hxo, hxg⟩
        exact hno x hx ⟨hxo, hxg⟩
      · simp only [h1, if_false, h2, if_false]
        refine iff_of_false (by decide) ?_
        rintro ⟨-, x, hx, hxg⟩
        exact absurd hxg (by simp [h2' x hx])
      · refine iff_of_true (by simp [h1, h2]) ?_
        intro x hx
        refine ⟨h2' x hx, ?_⟩
        have := h1' x hx
        rw [h2' x hx] at this
        simpa using this

/-- C2 witness for the amended characterisation: hosts matching at most one
family, with Outlook taking precedence across distinct hosts, and a pure
Gmail host set classified `Gmail`. -/
theorem provider_scan_amended_witness :
    classifyHosts ["aspmx.l.google.com", "mail.hotmail.com"] = "Outlook"
    ∧ classifyHosts ["aspmx.l.google.com"] = "Gmail" :=
  ⟨(provider_scan_amended ["aspmx.l.google.com", "mail.hotmail.com"]).1.mpr
      ⟨"mail.hotmail.com", by decide, by decide, by decide⟩,
   (provider_scan_amended ["aspmx.l.google.com"]).2.1.mpr
      ⟨by decide, "aspmx.l.google.com", by decide, by decide⟩⟩

/-- Dropping a whitespace prefix never removes a non-whitespace character. -/
lemma mem_dropWhile_of_not {p : Char → Bool} {c : Char} (hc : p c = false) :
    ∀ l : List Char, c ∈ l.dropWhile p ↔ c ∈ l := by
  intro l
  induction l with
  | nil => simp
  | cons a t ih =>
    by_cases ha : p a = true
    · rw [List.dropWhile_cons_of_pos ha, ih]
      constructor
      · exact fun h => List.mem_cons_of_mem a h
      · intro h
        rcases List.mem_cons.mp h with rfl | h
        · exact absurd ha (by simp [hc])
        · exact h
    · rw [List.dropWhile_cons_of_neg ha]

/-- Stripping surrounding whitespace preserves the presence of `@`. -/
lemma at_mem_pyStrip (v : String) : '@' ∈ pyStrip v ↔ '@' ∈ v.toList := by
  unfold pyStrip
  rw [List.mem_reverse, mem_dropWhile_of_not (by decide), List.mem_reverse,
    mem_dropWhile_of_not (by decide)]

/-- Boolean form of `at_mem_pyStrip` for the `'@' in email` test. -/
lemma pyStrip_contains_at (v : String) :
    (pyStrip v).contains '@' = v.toList.contains '@' := by
  have h1 : (pyStrip v).contains '@' = true ↔ '@' ∈ pyStrip v := List.elem_iff
  have h2 : v.toList.contains '@' = true ↔ '@' ∈ v.toList := List.elem_iff
  have h3 : '@' ∈ pyStrip v ↔ '@' ∈ v.toList := at_mem_pyStrip v
  cases hb : (pyStrip v).contains '@' <;> cases hcv : v.toList.contains '@' <;> try rfl
  · exact hb.symm.trans (h1.mpr (h3.mpr (h2.mp hcv)))
  · exact (hcv.symm.trans (h2.mpr (h3.mp (h1.mp hb)))).symm


/-- Reformulation of the per-row email handling through the resolved email
value: the two nested matches of `mxResultOf` collapse to one match on
`emailValue`. -/
lemma mxResultOf_eq (fields : List (String × String)) (mx : String → String) :
    mxResultOf fields mx =
      (match emailValue fields with
       | some v =>
         if v = "" then "No Email"
         else
           if (pyStrip v).contains '@' then mx (domainAfterAt (pyStrip v))
           else "Invalid Email"
       | none => "No Email") := by
  unfold mxResultOf emailValue
  cases findKey emailMatch fields with
  | none => rfl
  | some k =>
    cases List.lookup k fields with
    | none => rfl
    | some v => rfl

/-- C5: the provider lookup is consulted only for a present, non-empty
email value containing `@` (first conjunct: in exactly that case the MX
result is the lookup's answer on the extracted domain); a non-empty value
without `@` yields `Invalid Email` with no lookup; a missing column or
empty value yields `No Email` with no lookup; and whenever no such valid
value exists the row's MX result does not depend on the lookup oracle at
all. -/
theorem email_gating_before_lookup (fields : List (String × String)) :
    (∀ (v : String) (mx : String → String), emailValue fields = some v → v ≠ "" →
       '@' ∈ v.toList →
       mxResultOf fields mx = mx (domainAfterAt (pyStrip v)))
    ∧ (∀ (v : String) (mx : String → String), emailValue fields = some v → v ≠ "" →
       '@' ∉ v.toList →
       mxResultOf fields mx = "Invalid Email")
    ∧ (∀ mx : String → String,
       (emailValue fields = none ∨ emailValue fields = some "") →
       mxResultOf fields mx = "No Email")
    ∧ (∀ mx mx' : String → String,
       (∀ v : String, emailValue fields = some v → v ≠ "" → '@' ∉ v.toList) →
       mxResultOf fields mx = mxResultOf fields mx') := by
  refine ⟨?_, ?_, ?_, ?_⟩
  · intro v mx hv hne hcv
    rw [mxResultOf_eq, hv]
    simp [hne, (at_mem_pyStrip v).mpr hcv]
  · intro v mx hv hne hcv
    have hns : '@' ∉ pyStrip v := fun h => hcv ((at_mem_pyStrip v).mp h)
    rw [mxResultOf_eq, hv]
    simp [hne, hns]
  · intro mx h
    rcases h with h | h <;> rw [mxResultOf_eq, h] <;> simp
  · intro mx mx' hall
    rw [mxResultOf_eq, mxResultOf_eq]
    cases hv : emailValue fields with
    | none => rfl
    | some v0 =>
      by_cases hv0 : v0 = ""
      · simp [hv0]
      · have hcv := hall v0 hv hv0
        have hns : '@' ∉ pyStrip v0 := fun h => hcv ((at_mem_pyStrip v0).mp h)
        simp [hv0, hns]

/-- C5 witness: the four gating behaviours on concrete rows. -/
theorem email_gating_before_lookup_witness :
    mxResultOf [("Email", "a@b.com")] (fun _ => "Gmail") = "Gmail"
    ∧ mxResultOf [("Email", "abc")] (fun _ => "Gmail") = "Invalid Email"
    ∧ mxResultOf [("Name", "x")] (fun _ => "Gmail") = "No Email"
    ∧ mxResultOf [("Email", "abc")] (fun _ => "Gmail") =
        mxResultOf [("Email", "abc")] (fun _ => "Outlook") := by
  refine ⟨?_, ?_, ?_, ?_⟩
  · have h := (email_gating_before_lookup [("Email", "a@b.com")]).1 "a@b.com"
      (fun _ => "Gmail") (by decide) (by decide) (by decide)
    simpa using h
  · exact (email_gating_before_lookup [("Email", "abc")]).2.1 "abc" (fun _ => "Gmail")
      (by decide) (by decide) (by decide)
  · exact (email_gating_before_lookup [("Name", "x")]).2.2.1 (fun _ => "Gmail")
      (Or.inl (by decide))
  · refine (email_gating_before_lookup [("Email", "abc")]).2.2.2 _ _ ?_
    intro v hv hne
    have he : emailValue [("Email", "abc")] = some "abc" := by decide
    rw [he] at hv
    injection hv with hv0
    subst hv0
    decide

/-- C10: a present non-empty email value whose stripped form has no `@`
(a whitespace-only value included) yields `Invalid Email`; `mx_lookup`
never produces `No Email`; and consequently, with the MX oracle given by
`mx_lookup` on any per-domain lookup outcomes, a row's MX result is
`No Email` exactly when the email column is absent or its value is empty
before stripping. -/
theorem invalid_email_vs_no_email (fields : List (String × String)) :
    (∀ (v : String) (mx : String → String), emailValue fields = some v → v ≠ "" →
       '@' ∉ pyStrip v → mxResultOf fields mx = "Invalid Email")
    ∧ (∀ primary fallback : Except Unit (List String),
       mx_lookup primary fallback ≠ "No Email")
    ∧ (∀ primaryOf fallbackOf : String → Except Unit (List String),
       mxResultOf fields (fun d => mx_lookup (primaryOf d) (fallbackOf d)) = "No Email" ↔
         (emailValue fields = none ∨ emailValue fields = some "")) := by
  have hmx : ∀ primary fallback : Except Unit (List String),
      mx_lookup primary fallback ≠ "No Email" := by
    intro primary fallback
    cases primary with
    | ok answers =>
      rcases Bool.eq_false_or_eq_true answers.isEmpty with he | he <;>
        rcases classifyHosts_cases answers with hcl | hcl | hcl <;>
          simp [mx_lookup, he, hcl]
    | error e =>
      cases fallback with
      | ok answers =>
        rcases Bool.eq_false_or_eq_true answers.isEmpty with he | he <;>
          rcases classifyHosts_cases answers with hcl | hcl | hcl <;>
            simp [mx_lookup, he, hcl]
      | error f => simp [mx_lookup]
  refine ⟨?_, hmx, ?_⟩
  · intro v mx hv hne hns
    rw [mxResultOf_eq, hv]
    simp [hne, hns]
  · intro primaryOf fallbackOf
    rw [mxResultOf_eq]
    cases hv : emailValue fields with
    | none => simp
    | some v0 =>
      by_cases hv0 : v0 = ""
      · subst hv0
        simp
      · have hso : ¬(some v0 = none ∨ some v0 = some "") := by simp [hv0]
        refine iff_of_false ?_ hso
        by_cases hca : '@' ∈ pyStrip v0
        · intro heq
          simp [hv0, hca] at heq
          exact hmx _ _ heq
        · intro heq
          simp [hv0, hca] at heq
          exact absurd heq (by decide)

/-- C10 witness: a whitespace-only email value is `Invalid Email`, not
`No Email`; a row without an email column is `No Email`. -/
theorem invalid_email_vs_no_email_witness :
    mxResultOf [("Email", " ")]
        (fun _ => mx_lookup (Except.error ()) (Except.error ())) = "Invalid Email"
    ∧ (mxResultOf [("Name", "x")]
         (fun _ => mx_lookup (Except.ok []) (Except.ok [])) = "No Email" ↔
       (emailValue [("Name", "x")] = none ∨ emailValue [("Name", "x")] = some "")) := by
  refine ⟨?_, ?_⟩
  · exact (invalid_email_vs_no_email [("Email", " ")]).1 " "
      (fun _ => mx_lookup (Except.error ()) (Except.error ())) (by decide) (by decide) (by decide)
  · exact (invalid_email_vs_no_email [("Name", "x")]).2.2 (fun _ => Except.ok [])
      (fun _ => Except.ok [])

/-- First-match rule: when no earlier key satisfies the matcher and `k`
does, the resolver returns `k`, whatever its position or the later keys. -/
lemma findKey_append_first (p : String → Bool) :
    ∀ (pre : List (String × String)) (k v : String) (post : List (String × String)),
    (∀ kv ∈ pre, p kv.1 = false) → p k = true →
    findKey p (pre ++ (k, v) :: post) = some k := by
  intro pre
  induction pre with
  | nil =>
    intro k v post _ hk
    unfold findKey
    rw [List.nil_append, List.find?_cons_of_pos _ (by simpa using hk)]
    rfl
  | cons a t ih =>
    intro k v post hpre hk
    have step : List.find? (fun kv : String × String => p kv.1) (a :: (t ++ (k, v) :: post)) =
        List.find? (fun kv : String × String => p kv.1) (t ++ (k, v) :: post) :=
      List.find?_cons_of_neg _ (by simp [hpre a (by simp)])
    unfold findKey
    rw [List.cons_append, step]
    exact ih k v post (fun kv hkv => hpre kv (by simp [hkv])) hk

/-- When no key satisfies the matcher the resolver returns `none`. -/
lemma findKey_eq_none (p : String → Bool) (fields : List (String × String))
    (h : ∀ kv ∈ fields, p kv.1 = false) : findKey p fields = none := by
  unfold findKey
  rw [List.find?_eq_none.mpr (fun kv hkv => by simp [h kv hkv])]
  rfl

/-- Looking up the first occurrence of a key none of whose predecessors
carry it yields its value. -/
lemma lookup_append_first :
    ∀ (pre : List (String × String)) (k v : String) (post : List (String × String)),
    (∀ kv ∈ pre, kv.1 ≠ k) →
    List.lookup k (pre ++ (k, v) :: post) = some v := by
  intro pre
  induction pre with
  | nil =>
    intro k v post _
    simp [List.lookup]
  | cons a t ih =>
    intro k v post hpre
    have ha : (k == a.1) = false := by
      have := hpre a (by simp)
      cases hb : k == a.1
      · rfl
      · exact absurd (beq_iff_eq.mp hb).symm this
    cases a with
    | mk a1 a2 =>
      simp only [List.cons_append, List.lookup, ha]
      exact ih k v post (fun kv hkv => hpre kv (by simp [hkv]))

/-- C7 counterexample: the email pattern occurs inside the column name
`Work Email` (case-insensitively), yet resolution finds no email column —
`re.match` anchors at the start, so matching is by prefix, not by
substring — and the row is treated as having no email. -/
theorem column_resolution_counterexample :
    containsSubstr "email".toList (lcChars "Work Email") = true
    ∧ emailMatch "Work Email" = false
    ∧ findKey emailMatch [("Work Email", "a@b.com")] = none
    ∧ mxResultOf [("Work Email", "a@b.com")] (fun _ => "Gmail") = "No Email" := by
  refine ⟨by decide, by decide, by decide, by decide⟩

/-- C7 amended: for each logical field (title, company, email) resolution
selects the first column in header order whose name starts with one of the
field's patterns, case-insensitively (anchored prefix match rather than
substring match); the matching column's value is used, and when no column
matches, the sentinel default applies: `Unknown Position` for title,
`Unknown Company` for company, and the no-email path for email. -/
theorem column_resolution_amended :
    (∀ (pre : List (String × String)) (k v : String) (post : List (String × String)),
       (∀ kv ∈ pre, companyMatch kv.1 = false) → companyMatch k = true →
       findKey companyMatch (pre ++ (k, v) :: post) = some k
         ∧ companyName (pre ++ (k, v) :: post) = v)
    ∧ (∀ (pre : List (String × String)) (k v : String) (post : List (String × String)),
       (∀ kv ∈ pre, titleMatch kv.1 = false) → titleMatch k = true →
       findKey titleMatch (pre ++ (k, v) :: post) = some k
         ∧ resolvedTitle (pre ++ (k, v) :: post) = v)
    ∧ (∀ (pre : List (String × String)) (k v : String) (post : List (String × String)),
       (∀ kv ∈ pre, emailMatch kv.1 = false) → emailMatch k = true →
       findKey emailMatch (pre ++ (k, v) :: post) = some k)
    ∧ (∀ fields : List (String × String),
       (∀ kv ∈ fields, companyMatch kv.1 = false) → companyName fields = "Unknown Company")
    ∧ (∀ fields : List (String × String),
       (∀ kv ∈ fields, titleMatch kv.1 = false) → resolvedTitle fields = "Unknown Position")
    ∧ (∀ (fields : List (String × String)) (mx : String → String),
       (∀ kv ∈ fields, emailMatch kv.1 = false) → mxResultOf fields mx = "No Email") := by
  have hval : ∀ (p : String → Bool) (pre : List (String × String)) (k v : String)
      (post : List (String × String)), (∀ kv ∈ pre, p kv.1 = false) → p k = true →
      rowGet (pre ++ (k, v) :: post) (findKey p (pre ++ (k, v) :: post)) "d" = v := by
    intro p pre k v post hpre hk
    rw [findKey_append_first p pre k v post hpre hk]
    have hne : ∀ kv ∈ pre, kv.1 ≠ k := by
      intro kv hkv he
      rw [← he] at hk
      exact absurd hk (by simp [hpre kv hkv])
    simp [rowGet, lookup_append_first pre k v post hne]
  refine ⟨?_, ?_, ?_, ?_, ?_, ?_⟩
  · intro pre k v post hpre hk
    refine ⟨findKey_append_first _ pre k v post hpre hk, ?_⟩
    unfold companyName
    have h := hval companyMatch pre k v post hpre hk
    rw [findKey_append_first _ pre k v post hpre hk] at *
    have hne : ∀ kv ∈ pre, kv.1 ≠ k := by
      intro kv hkv he
      rw [← he] at hk
      exact absurd hk (by simp [hpre kv hkv])
    simp [rowGet, lookup_append_first pre k v post hne]
  · intro pre k v post hpre hk
    refine ⟨findKey_append_first _ pre k v post hpre hk, ?_⟩
    unfold resolvedTitle
    rw [findKey_append_first _ pre k v post hpre hk]
    have hne : ∀ kv ∈ pre, kv.1 ≠ k := by
      intro kv hkv he
      rw [← he] at hk
      exact absurd hk (by simp [hpre kv hkv])
    simp [rowGet, lookup_append_first pre k v post hne]
  · intro pre k v post hpre hk
    exact findKey_append_first _ pre k v post hpre hk
  · intro fields h
    unfold companyName
    rw [findKey_eq_none _ _ h]
    rfl
  · intro fields h
    unfold resolvedTitle
    rw [findKey_eq_none _ _ h]
    rfl
  · intro fields mx h
    unfold mxResultOf
    rw [findKey_eq_none _ _ h]

/-- C7 witness for the amended resolution: case variants resolve in header
order, and headers matching no pattern produce the sentinels. -/
theorem column_resolution_amended_witness :
    (findKey companyMatch [("Lead Id", "7"), ("COMPANY NAME", "ACME")] = some "COMPANY NAME"
      ∧ companyName [("Lead Id", "7"), ("COMPANY NAME", "ACME")] = "ACME")
    ∧ (findKey titleMatch [("title", "CEO"), ("Name", "Ana")] = some "title"
      ∧ resolvedTitle [("title", "CEO"), ("Name", "Ana")] = "CEO")
    ∧ companyName [("Lead Id", "7")] = "Unknown Company"
    ∧ resolvedTitle [("Lead Id", "7")] = "Unknown Position" := by
  refine ⟨?_, ?_, ?_, ?_⟩
  · exact column_resolution_amended.1 [("Lead Id", "7")] "COMPANY NAME" "ACME" []
      (by decide) (by decide)
  · exact column_resolution_amended.2.1 [] "title" "CEO" [("Name", "Ana")]
      (by decide) (by decide)
  · exact column_resolution_amended.2.2.2.1 [("Lead Id", "7")] (by decide)
  · exact column_resolution_amended.2.2.2.2.1 [("Lead Id", "7")] (by decide)

/-- The row loop writes exactly one output row per well-formed input row. -/
lemma processRowsGo_length :
    ∀ (rows : List InputRow) (rowIndex : Nat) (counts : String → Nat)
      (classify : Nat → Except Unit String) (mx : String → String),
    (processRowsGo rows rowIndex counts classify mx).length =
      (wellFormedFieldsOf rows).length := by
  intro rows
  induction rows with
  | nil => intro rowIndex counts classify mx; rfl
  | cons r rest ih =>
    intro rowIndex counts classify mx
    cases r with
    | malformed => simp [processRowsGo, wellFormedFieldsOf, ih]
    | wellFormed fields => simp [processRowsGo, wellFormedFieldsOf, ih]

/-- C4: row-level failures never abort the run — a malformed row is
skipped while the loop continues on the remaining rows with untouched
counters; a well-formed row whose classification raises is still written,
with `Error` as its label; and the output always has exactly one row per
well-formed input row. -/
theorem row_failure_isolation :
    (∀ (rest : List InputRow) (rowIndex : Nat) (counts : String → Nat)
       (classify : Nat → Except Unit String) (mx : String → String),
       processRowsGo (InputRow.malformed :: rest) rowIndex counts classify mx =
         processRowsGo rest (rowIndex + 1) counts classify mx)
    ∧ (∀ (fields : List (String × String)) (rest : List InputRow) (rowIndex : Nat)
       (counts : String → Nat) (classify : Nat → Except Unit String) (mx : String → String),
       classify rowIndex = Except.error () →
       processRowsGo (InputRow.wellFormed fields :: rest) rowIndex counts classify mx =
         { fields := fields, limpio := "Error",
           bundle := bundleOf (counts (companyName fields) + 1),
           mxResult := mxResultOf fields mx }
           :: processRowsGo rest (rowIndex + 1)
               (updateCount counts (companyName fields) (counts (companyName fields) + 1))
               classify mx)
    ∧ (∀ (rows : List InputRow) (classify : Nat → Except Unit String) (mx : String → String),
       (processRows rows classify mx).length = (wellFormedFieldsOf rows).length) := by
  refine ⟨fun rest rowIndex counts classify mx => rfl, ?_, ?_⟩
  · intro fields rest rowIndex counts classify mx hcl
    simp [processRowsGo, limpioOf, hcl]
  · intro rows classify mx
    exact processRowsGo_length rows 0 (fun _ => 0) classify mx

/-- C4 witness: a malformed row followed by a well-formed row whose
classification fails permanently — the malformed row is skipped, the
well-formed row is written with the `Error` label. -/
theorem row_failure_isolation_witness :
    processRowsGo [InputRow.malformed, InputRow.wellFormed [("Company", "ACME")]] 0 (fun _ => 0)
        (fun _ => Except.error ()) (fun _ => "Other") =
      processRowsGo [InputRow.wellFormed [("Company", "ACME")]] 1 (fun _ => 0)
        (fun _ => Except.error ()) (fun _ => "Other")
    ∧ (processRowsGo [InputRow.wellFormed [("Company", "ACME")]] 1 (fun _ => 0)
        (fun _ => Except.error ()) (fun _ => "Other")).map AugRow.limpio = ["Error"]
    ∧ (processRows [InputRow.malformed, InputRow.wellFormed [("Company", "ACME")]]
        (fun _ => Except.error ()) (fun _ => "Other")).length = 1 := by
  refine ⟨row_failure_isolation.1 _ _ _ _ _, ?_, ?_⟩
  · rw [row_failure_isolation.2.1 [("Company", "ACME")] [] 1 (fun _ => 0)
      (fun _ => Except.error ()) (fun _ => "Other") rfl]
    rfl
  · rw [row_failure_isolation.2.2 _ _ _]
    rfl

/-- The bundle list has one entry per company entry. -/
lemma assignBundlesGo_length :
    ∀ (companies : List String) (counts : String → Nat),
    (assignBundlesGo companies counts).length = companies.length := by
  intro companies
  induction companies with
  | nil => intro counts; rfl
  | cons c rest ih => intro counts; simp [assignBundlesGo, ih]

/-- Closed form of the stateful bundle assignment: the bundle at position
`i` depends only on the starting counter for that company plus its number
of occurrences among the first `i+1` entries. -/
lemma assignBundlesGo_getD :
    ∀ (companies : List String) (counts : String → Nat) (i : Nat), i < companies.length →
    (assignBundlesGo companies counts).getD i 0 =
      bundleOf (counts (companies.getD i "") +
        (companies.take (i + 1)).count (companies.getD i "")) := by
  intro companies
  induction companies with
  | nil => intro counts i h; simp at h
  | cons c rest ih =>
    intro counts i h
    cases i with
    | zero => simp [assignBundlesGo, List.count_cons]
    | succ j =>
      have hj : j < rest.length := by simpa using h
      have lhs : (assignBundlesGo (c :: rest) counts).getD (j + 1) 0 =
          (assignBundlesGo rest (updateCount counts c (counts c + 1))).getD j 0 := by
        simp [assignBundlesGo]
      rw [lhs, ih (updateCount counts c (counts c + 1)) j hj]
      simp only [List.getD_cons_succ, List.take_succ_cons, List.count_cons]
      by_cases hx : rest.getD j "" = c
      · rw [hx]
        simp only [updateCount, if_pos rfl, beq_self_eq_true, if_true]
        congr 1
        omega
      · have hcx : ¬ c = rest.getD j "" := fun he => hx he.symm
        have hbeq : ¬ ((c == rest.getD j "") = true) := fun hb => hcx (beq_iff_eq.mp hb)
        simp only [updateCount]
        rw [if_neg hx, if_neg hbeq]
        simp

/-- The bundle formula is monotone in the occurrence count. -/
lemma bundleOf_mono {m n : Nat} (h : m ≤ n) : bundleOf m ≤ bundleOf n := by
  unfold bundleOf
  have h2 : (m - 1) / 50 ≤ (n - 1) / 50 := Nat.div_le_div_right (Nat.sub_le_sub_right h 1)
  omega

/-- Occurrence counts grow along the arrival order of a fixed company. -/
lemma occIndex_mono (companies : List String) (i j : Nat) (hij : i ≤ j)
    (heq : companies.getD i "" = companies.getD j "") :
    occIndex companies i ≤ occIndex companies j := by
  unfold occIndex
  rw [heq]
  have h1 : List.take (i + 1) (List.take (j + 1) companies) = List.take (i + 1) companies := by
    rw [List.take_take, Nat.min_eq_left (by omega)]
  have hsub : (List.take (i + 1) companies).Sublist (List.take (j + 1) companies) :=
    h1 ▸ List.take_sublist (i + 1) (List.take (j + 1) companies)
  exact List.Sublist.count_le hsub _

/-- The bundles written by the row loop are exactly the stateful bundle
assignment applied to the resolved company names of the well-formed rows. -/
lemma processRowsGo_map_bundle :
    ∀ (rows : List InputRow) (rowIndex : Nat) (counts : String → Nat)
      (classify : Nat → Except Unit String) (mx : String → String),
    (processRowsGo rows rowIndex counts classify mx).map AugRow.bundle =
      assignBundlesGo ((wellFormedFieldsOf rows).map companyName) counts := by
  intro rows
  induction rows with
  | nil => intro rowIndex counts classify mx; rfl
  | cons r rest ih =>
    intro rowIndex counts classify mx
    cases r with
    | malformed => simp [processRowsGo, wellFormedFieldsOf, ih]
    | wellFormed fields => simp [processRowsGo, wellFormedFieldsOf, assignBundlesGo, ih]

/-- C1: every written row's bundle number is `floor((count - 1) / 50) + 1`
with `count` the 1-based occurrence index of its company in arrival order
(first conjunct ties the row loop's bundles to the pure assignment, the
second gives the formula); the 50th/51st/100th/101st occurrences fall in
bundles 1/2/2/3; and bundle numbers are non-decreasing per company along
the arrival order. -/
theorem bundle_numbers_from_occurrence (companies : List String) (rows : List InputRow)
    (classify : Nat → Except Unit String) (mx : String → String) :
    ((processRows rows classify mx).map AugRow.bundle =
       assignBundles ((wellFormedFieldsOf rows).map companyName))
    ∧ (∀ i : Nat, i < companies.length →
       (assignBundles companies).getD i 0 = bundleOf (occIndex companies i))
    ∧ (∀ i : Nat, i < companies.length →
       (occIndex companies i = 50 → (assignBundles companies).getD i 0 = 1)
       ∧ (occIndex companies i = 51 → (assignBundles companies).getD i 0 = 2)
       ∧ (occIndex companies i = 100 → (assignBundles companies).getD i 0 = 2)
       ∧ (occIndex companies i = 101 → (assignBundles companies).getD i 0 = 3))
    ∧ (∀ i j : Nat, i ≤ j → j < companies.length →
       companies.getD i "" = companies.getD j "" →
       (assignBundles companies).getD i 0 ≤ (assignBundles companies).getD j 0) := by
  have hform : ∀ i : Nat, i < companies.length →
      (assignBundles companies).getD i 0 = bundleOf (occIndex companies i) := by
    intro i h
    have h2 := assignBundlesGo_getD companies (fun _ => 0) i h
    simpa [assignBundles, occIndex] using h2
  refine ⟨?_, hform, ?_, ?_⟩
  · have h := processRowsGo_map_bundle rows 0 (fun _ => 0) classify mx
    simpa [processRows, assignBundles] using h
  · intro i h
    refine ⟨fun ho => ?_, fun ho => ?_, fun ho => ?_, fun ho => ?_⟩ <;>
      rw [hform i h, ho] <;> decide
  · intro i j hij hj heq
    rw [hform i (Nat.lt_of_le_of_lt hij hj), hform j hj]
    exact bundleOf_mono (occIndex_mono companies i j hij heq)

/-- C1 witness: formula, boundary and monotonicity instances on concrete
company sequences. -/
theorem bundle_numbers_from_occurrence_witness :
    (assignBundles ["a", "b", "a"]).getD 2 0 = bundleOf (occIndex ["a", "b", "a"] 2)
    ∧ occIndex ["a", "b", "a"] 2 = 2
    ∧ (assignBundles (List.replicate 51 "a")).getD 50 0 = 2
    ∧ (assignBundles ["a", "b", "a"]).getD 0 0 ≤ (assignBundles ["a", "b", "a"]).getD 2 0 := by
  refine ⟨?_, by decide, ?_, ?_⟩
  · exact (bundle_numbers_from_occurrence ["a", "b", "a"] [] (fun _ => Except.error ())
      (fun _ => "")).2.1 2 (by decide)
  · exact ((bundle_numbers_from_occurrence (List.replicate 51 "a") []
      (fun _ => Except.error ()) (fun _ => "")).2.2.1 50 (by decide)).2.1 (by decide)
  · exact (bundle_numbers_from_occurrence ["a", "b", "a"] [] (fun _ => Except.error ())
      (fun _ => "")).2.2.2 0 2 (by decide) (by decide) (by decide)
